import Mathlib

/-!
Shallow embedding of the IOS HLE filesystem device of
Source/Core/Core/IPC_HLE/WII_IPC_HLE_Device_fs.cpp (Dolphin).

Guest-visible strings (paths, file names) are modelled as byte lists
(List Nat); buffers written into guest memory are byte lists or decoded
records.  Machine integers are Nat with explicit reductions modulo 2 ^ 32
(u32) and 2 ^ 64 (u64) at the points where the source performs a narrowing
cast or accumulates in a fixed-width integer.
-/

namespace DolphinFS

/-- IPC_SUCCESS result code (value 0, used literally by the source). -/
def IPC_SUCCESS : Int := 0

/-- Modelled from the spec: FS_EINVAL, the generic invalid-argument result
code.  The header declaring the numeric value is not among the sources; only
the distinctness from the other codes matters below. -/
def FS_EINVAL : Int := -4

/-- Modelled from the spec: FS_ENOENT, the not-found result code. -/
def FS_ENOENT : Int := -106

/-- Modelled from the spec: FS_EEXIST, the already-exists result code. -/
def FS_EEXIST : Int := -105

/-- Result code returned by GET_STATS when the output buffer is smaller than
0x1c bytes; the value -1017 appears literally in the source. -/
def FS_BUFFER_TOO_SMALL : Int := -1017

/-- Modelled from the spec: the IOCTL opcode numbers routed by the two
dispatch switches.  The header declaring them is not among the sources; the
claims only depend on which opcodes appear in each dispatch table. -/
def IOCTL_GET_STATS : Nat := 2

/-- Modelled from the spec: CREATE_DIR opcode. -/
def IOCTL_CREATE_DIR : Nat := 3

/-- Modelled from the spec: READ_DIR opcode (vectored). -/
def IOCTLV_READ_DIR : Nat := 4

/-- Modelled from the spec: SET_ATTR opcode. -/
def IOCTL_SET_ATTR : Nat := 5

/-- Modelled from the spec: GET_ATTR opcode. -/
def IOCTL_GET_ATTR : Nat := 6

/-- Modelled from the spec: DELETE_FILE opcode. -/
def IOCTL_DELETE_FILE : Nat := 7

/-- Modelled from the spec: RENAME_FILE opcode. -/
def IOCTL_RENAME_FILE : Nat := 8

/-- Modelled from the spec: CREATE_FILE opcode. -/
def IOCTL_CREATE_FILE : Nat := 9

/-- Modelled from the spec: GETUSAGE opcode (vectored). -/
def IOCTLV_GETUSAGE : Nat := 12

/-- Modelled from the spec: SHUTDOWN opcode. -/
def IOCTL_SHUTDOWN : Nat := 13

/-- Byte value of the path separator character. -/
def sepByte : Nat := 47

/-- Byte list of a Lean string literal, used to spell the hard-coded legacy
paths of the source as byte lists. -/
def strBytes (s : String) : List Nat := s.toList.map Char.toNat

/-- IsValidWiiPath: path.compare(0, 1, the separator string) == 0, i.e. the
first byte of the path is the separator. -/
def IsValidWiiPath (path : List Nat) : Bool := path.take 1 == [sepByte]

/-- Models std::string::compare(0, count, lit) == 0 as used on line 192 of
the source: the first count bytes of the path (fewer when the path is
shorter) must coincide with the whole literal. -/
def cppCompareEq (path : List Nat) (count : Nat) (lit : List Nat) : Bool :=
  path.take count == lit

/-- First hard-coded legacy usage path literal of the source. -/
def legacyTitle1 : List Nat := strBytes "/title/00010001"

/-- Second hard-coded legacy usage path literal of the source. -/
def legacyTitle2 : List Nat := strBytes "/title/00010005"

/-- A scanned host directory tree (File::FSTEntry): a file carries its byte
content, a directory its ordered children; each node carries the name the
scan reports for it. -/
inductive Node : Type where
  | file (name : List Nat) (content : List Nat)
  | dir (name : List Nat) (children : List Node)

/-- Name component of a scanned node. -/
def Node.name : Node → List Nat
  | .file n _ => n
  | .dir n _ => n

mutual

/-- Number of entries a recursive ScanDirectoryTree counts for one node:
itself plus, for a directory, all of its descendants.  Modelled from the
spec for the external scan primitive whose size field GETUSAGE reads. -/
def nodeCount : Node → Nat
  | .file _ _ => 1
  | .dir _ cs => 1 + nodesCount cs

/-- Total entry count of a list of sibling subtrees. -/
def nodesCount : List Node → Nat
  | [] => 0
  | c :: cs => nodeCount c + nodesCount cs

end

mutual

/-- ComputeTotalFileSize (source lines 61-72) applied to one entry: sums the
sizes of files below a directory; recursion descends into sub-directories
and adds the size field of each file child. -/
def computeTotalFileSize : Node → Nat
  | .file _ _ => 0
  | .dir _ cs => childrenFileSize cs

/-- Loop body of ComputeTotalFileSize over the children list. -/
def childrenFileSize : List Node → Nat
  | [] => 0
  | .file _ c :: cs => c.length + childrenFileSize cs
  | .dir n ds :: cs => computeTotalFileSize (.dir n ds) + childrenFileSize cs

end

/-- File::IsDirectory on the resolved host path, where none models a missing
path and some the entry found there. -/
def isDirectoryOpt : Option Node → Bool
  | some (.dir _ _) => true
  | _ => false

/-- Reply of one vectored request: the result code handed to GetFSReply plus
what was written into each possible output vector (none when the handler
never wrote that vector). -/
structure VResult where
  ret : Int
  countOut : Option Nat
  namesOut : Option (List Nat)
  listCountOut : Option Nat
  usageOut : Option (Nat × Nat)
deriving DecidableEq

/-- A vectored reply that wrote nothing, carrying the given result code. -/
def VResult.pure (r : Int) : VResult :=
  { ret := r, countOut := none, namesOut := none, listCountOut := none,
    usageOut := none }

/-- GETUSAGE branch of IOCtlV (source lines 162-223).  The request carries
the guest path read from in_vectors[0]; resolved is the host entry the built
filename designates (none when nothing exists there). -/
def getUsageCase (path : List Nat) (resolved : Option Node) : VResult :=
  if !IsValidWiiPath path then VResult.pure FS_EINVAL
  else
    match resolved with
    | some (.dir _ cs) =>
      if cppCompareEq path 16 legacyTitle1 || cppCompareEq path 16 legacyTitle2 then
        { VResult.pure IPC_SUCCESS with usageOut := some (23, 42) }
      else
        { VResult.pure IPC_SUCCESS with
          usageOut := some ((childrenFileSize cs % 2 ^ 64) / (16 * 1024) % 2 ^ 32,
                            (1 + nodesCount cs % 2 ^ 32) % 2 ^ 32) }
    | _ =>
      { VResult.pure IPC_SUCCESS with usageOut := some (0, 0) }

/-- One vectored request as the handler sees it: the opcode, the vector
counts, the guest path decoded from in_vectors[0], the u32 the handler reads
at in_vectors[0].address as the entry cap, and the byte size of
io_vectors[0] (the names buffer in listing mode). -/
structure VRequest where
  request : Nat
  inCount : Nat
  ioCount : Nat
  path : List Nat
  maxEntries : Nat
  namesBufSize : Nat

/-- Packs file names the way the copy loop of READ_DIR does: each name is
written contiguously and closed with one terminating zero byte. -/
def packNames : List (List Nat) → List Nat
  | [] => []
  | n :: ns => n ++ (0 :: packNames ns)

/-- READ_DIR branch of IOCtlV (source lines 79-160).  In listing mode the
children names are unescaped in place, sorted by the resulting name, copied
NUL-terminated into the zero-filled names buffer up to the entry cap, and
the number copied is written to the second output vector; with exactly one
input and one output vector only the direct child count is written. -/
def readDirCase (req : VRequest) (resolved : Option Node)
    (unescape : List Nat → List Nat) : VResult :=
  if !IsValidWiiPath req.path then VResult.pure FS_EINVAL
  else
    match resolved with
    | none => VResult.pure FS_ENOENT
    | some (.file _ _) => VResult.pure FS_EINVAL
    | some (.dir _ children) =>
      if req.inCount = 1 ∧ req.ioCount = 1 then
        { VResult.pure IPC_SUCCESS with
          countOut := some (children.length % 2 ^ 32) }
      else
        let names :=
          (children.map fun c => unescape c.name).insertionSort (· ≤ ·)
        let taken := names.take req.maxEntries
        let packed := packNames taken
        { VResult.pure IPC_SUCCESS with
          namesOut :=
            some (packed ++ List.replicate (req.namesBufSize - packed.length) 0),
          listCountOut := some (taken.length % 2 ^ 32) }

/-- IOCtlV dispatch switch (source lines 74-232).  The local return_value
starts at IPC_SUCCESS and the default case only logs the unknown request, so
an unrecognized vectored opcode reports success.  The unescape argument
models the external Common::UnescapeFileName transform. -/
def IOCtlV (req : VRequest) (resolved : Option Node)
    (unescape : List Nat → List Nat) : VResult :=
  if req.request = IOCTLV_READ_DIR then readDirCase req resolved unescape
  else if req.request = IOCTLV_GETUSAGE then getUsageCase req.path resolved
  else VResult.pure IPC_SUCCESS

/-- One entry of the host filesystem as the scalar opcodes observe it:
either a file with its byte content or a directory. -/
inductive HostEntry : Type where
  | file (content : List Nat)
  | directory
deriving DecidableEq

/-- Host filesystem reachable from the device root, as a path-keyed
association list (keys are guest paths; HLE_IPC_BuildFilename only prefixes
the session root, so the guest path itself is used as the key). -/
abbrev HostFS : Type := List (List Nat × HostEntry)

/-- Looks a path up in the host filesystem. -/
def fsLookup : HostFS → List Nat → Option HostEntry
  | [], _ => none
  | (k, e) :: r, p => if k = p then some e else fsLookup r p

/-- File::Exists on the modelled host filesystem. -/
def fsExists (fs : HostFS) (p : List Nat) : Bool := (fsLookup fs p).isSome

/-- File::IsDirectory on the modelled host filesystem. -/
def fsIsDirectory (fs : HostFS) (p : List Nat) : Bool :=
  fsLookup fs p == some HostEntry.directory

/-- Removes the entry at a path (all occurrences of the key). -/
def fsRemove (fs : HostFS) (p : List Nat) : HostFS :=
  fs.filter fun kv => kv.1 ≠ p

/-- Stores an entry at a path, replacing whatever was there. -/
def fsInsert (fs : HostFS) (p : List Nat) (e : HostEntry) : HostFS :=
  (p, e) :: fsRemove fs p

/-- Proper prefixes of a path that end just before a separator byte; these
are the ancestor directories File::CreateFullPath walks. -/
def ancestorPrefixes (p : List Nat) : List (List Nat) :=
  (List.range p.length).filterMap fun i =>
    if 0 < i ∧ p.get? i = some sepByte then some (p.take i) else none

/-- Modelled from the spec: File::CreateFullPath (external primitive)
creates every missing ancestor directory of the given path. -/
def createFullPath (fs : HostFS) (p : List Nat) : HostFS :=
  (ancestorPrefixes p).foldl
    (fun f q => if fsExists f q then f else fsInsert f q HostEntry.directory) fs

/-- Modelled from the spec: File::CreateEmptyFile (external primitive)
creates an empty file at the path; host-level failures are not modelled, so
it always reports success. -/
def createEmptyFileOp (fs : HostFS) (p : List Nat) : Bool × HostFS :=
  (true, fsInsert fs p (HostEntry.file []))

/-- Modelled from the spec: File::Delete (external primitive) removes a
file, failing when the path is missing or a directory. -/
def deleteFileOp (fs : HostFS) (p : List Nat) : Bool × HostFS :=
  match fsLookup fs p with
  | some (HostEntry.file _) => (true, fsRemove fs p)
  | _ => (false, fs)

/-- Modelled from the spec: File::DeleteDir (external primitive) removes a
directory entry, failing when the path is not a directory. -/
def deleteDirOp (fs : HostFS) (p : List Nat) : Bool × HostFS :=
  match fsLookup fs p with
  | some HostEntry.directory => (true, fsRemove fs p)
  | _ => (false, fs)

/-- Modelled from the spec: File::Rename (external primitive) moves the
entry at the first path to the second, failing when the source is
missing. -/
def renameOp (fs : HostFS) (a b : List Nat) : Bool × HostFS :=
  match fsLookup fs a with
  | some e => (true, fsInsert (fsRemove fs a) b e)
  | none => (false, fs)

/-- One scalar request as ExecuteCommand sees it: the opcode, the guest
path (and second path for RENAME_FILE) decoded from the fixed-offset input
layout, and the output buffer size.  The fixed-offset decode of guest
memory is abstracted into the pre-decoded fields. -/
structure IOCtlRequest where
  request : Nat
  path : List Nat
  pathRename : List Nat
  bufferOutSize : Nat

/-- The canned NANDStat record GET_STATS copies into the output buffer. -/
structure NANDStat where
  BlockSize : Nat
  FreeUserBlocks : Nat
  UsedUserBlocks : Nat
  FreeSysBlocks : Nat
  UsedSysBlocks : Nat
  Free_INodes : Nat
  Used_Inodes : Nat
deriving DecidableEq

/-- Static values GET_STATS returns (source lines 255-261). -/
def cannedStats : NANDStat :=
  { BlockSize := 0x4000, FreeUserBlocks := 0x5DEC, UsedUserBlocks := 0x1DD4,
    FreeSysBlocks := 0x10, UsedSysBlocks := 0x02F0, Free_INodes := 0x146B,
    Used_Inodes := 0x0394 }

/-- The 76-byte attribute record GET_ATTR writes: owner id, group id, the
echoed 64-byte path field, the three permission bytes and the attribute
byte. -/
structure AttrRecord where
  ownerId : Nat
  groupId : Nat
  pathEcho : List Nat
  ownerPerm : Nat
  groupPerm : Nat
  otherPerm : Nat
  attributes : Nat
deriving DecidableEq

/-- What a scalar command wrote into the zero-filled output buffer: nothing
(the buffer keeps its zero fill), the canned stats record, or an attribute
record. -/
inductive OutputWrite : Type where
  | nothing
  | stats (s : NANDStat)
  | attr (a : AttrRecord)
deriving DecidableEq

/-- Reply of one scalar request: result code, host filesystem after the
command, and what was written into the output buffer. -/
structure SResult where
  ret : Int
  fs : HostFS
  out : OutputWrite
deriving DecidableEq

/-- ExecuteCommand (source lines 241-545): the scalar dispatch switch.
Every recognized opcode returns from inside its case except SHUTDOWN, which
breaks out of the switch and, like the default case, falls through to the
final return FS_EINVAL. -/
def ExecuteCommand (fs : HostFS) (req : IOCtlRequest) : SResult :=
  if req.request = IOCTL_GET_STATS then
    if req.bufferOutSize < 0x1c then
      { ret := FS_BUFFER_TOO_SMALL, fs := fs, out := OutputWrite.nothing }
    else
      { ret := IPC_SUCCESS, fs := fs, out := OutputWrite.stats cannedStats }
  else if req.request = IOCTL_CREATE_DIR then
    if !IsValidWiiPath req.path then
      { ret := FS_EINVAL, fs := fs, out := OutputWrite.nothing }
    else
      { ret := IPC_SUCCESS, fs := createFullPath fs (req.path ++ [sepByte]),
        out := OutputWrite.nothing }
  else if req.request = IOCTL_SET_ATTR then
    if !IsValidWiiPath req.path then
      { ret := FS_EINVAL, fs := fs, out := OutputWrite.nothing }
    else
      { ret := IPC_SUCCESS, fs := fs, out := OutputWrite.nothing }
  else if req.request = IOCTL_GET_ATTR then
    if !IsValidWiiPath req.path then
      { ret := FS_EINVAL, fs := fs, out := OutputWrite.nothing }
    else if !fsIsDirectory fs req.path ∧ !fsExists fs req.path then
      { ret := FS_ENOENT, fs := fs, out := OutputWrite.nothing }
    else if req.bufferOutSize = 76 then
      { ret := IPC_SUCCESS, fs := fs,
        out := OutputWrite.attr
          { ownerId := 0, groupId := 0x3031, pathEcho := req.path,
            ownerPerm := 0x3, groupPerm := 0x3, otherPerm := 0x3,
            attributes := 0x00 } }
    else
      { ret := IPC_SUCCESS, fs := fs, out := OutputWrite.nothing }
  else if req.request = IOCTL_DELETE_FILE then
    if !IsValidWiiPath req.path then
      { ret := FS_EINVAL, fs := fs, out := OutputWrite.nothing }
    else
      let r1 := deleteFileOp fs req.path
      if r1.1 then { ret := IPC_SUCCESS, fs := r1.2, out := OutputWrite.nothing }
      else
        let r2 := deleteDirOp fs req.path
        { ret := IPC_SUCCESS, fs := r2.2, out := OutputWrite.nothing }
  else if req.request = IOCTL_RENAME_FILE then
    if !IsValidWiiPath req.path then
      { ret := FS_EINVAL, fs := fs, out := OutputWrite.nothing }
    else if !IsValidWiiPath req.pathRename then
      { ret := FS_EINVAL, fs := fs, out := OutputWrite.nothing }
    else
      let fs1 := createFullPath fs req.pathRename
      let fs2 :=
        if fsExists fs1 req.path ∧ fsExists fs1 req.pathRename then
          (deleteFileOp fs1 req.pathRename).2
        else fs1
      let r := renameOp fs2 req.path req.pathRename
      if r.1 then { ret := IPC_SUCCESS, fs := r.2, out := OutputWrite.nothing }
      else { ret := FS_ENOENT, fs := r.2, out := OutputWrite.nothing }
  else if req.request = IOCTL_CREATE_FILE then
    if !IsValidWiiPath req.path then
      { ret := FS_EINVAL, fs := fs, out := OutputWrite.nothing }
    else if fsExists fs req.path then
      { ret := FS_EEXIST, fs := fs, out := OutputWrite.nothing }
    else
      let fs1 := createFullPath fs req.path
      let r := createEmptyFileOp fs1 req.path
      if r.1 then { ret := IPC_SUCCESS, fs := r.2, out := OutputWrite.nothing }
      else { ret := FS_EINVAL, fs := r.2, out := OutputWrite.nothing }
  else if req.request = IOCTL_SHUTDOWN then
    { ret := FS_EINVAL, fs := fs, out := OutputWrite.nothing }
  else
    { ret := FS_EINVAL, fs := fs, out := OutputWrite.nothing }

/-- IOCtl (source lines 234-239): zero-fills the output buffer, runs
ExecuteCommand and hands its code to GetFSReply.  OutputWrite.nothing in the
reply therefore means the buffer stays entirely zero. -/
def IOCtl (fs : HostFS) (req : IOCtlRequest) : SResult :=
  ExecuteCommand fs req

/-- One primitive PointerWrap operation of the DoState stream: a one-byte
type tag, a length-prefixed name string, a u32 size, or one DoArray raw-byte
block. -/
inductive Tok : Type where
  | tag (t : Nat)
  | name (n : List Nat)
  | size (s : Nat)
  | bytes (b : List Nat)
deriving DecidableEq

/-- Type-tag byte for a directory record (the character d). -/
def tagDir : Nat := 100

/-- Type-tag byte for a file record (the character f). -/
def tagFile : Nat := 102

/-- Emits a file content as the save loop streams it: full 65536-byte
DoArray blocks while more than 65536 bytes remain, then one final block
with the remaining count (possibly zero bytes). -/
def writeChunks (c : List Nat) : List Tok :=
  if _h : 65536 < c.length then
    Tok.bytes (c.take 65536) :: writeChunks (c.drop 65536)
  else [Tok.bytes c]
termination_by c.length
decreasing_by simp only [List.length_drop]; omega

/-- Prepends one DoArray block to the content read so far. -/
def prependChunk (b : List Nat) (r : List Nat × List Tok) :
    List Nat × List Tok :=
  (b ++ r.1, r.2)

/-- Reads the DoArray blocks of one file record on restore: with a positive
counter of pending full blocks a 65536-byte block is consumed and the
counter decremented, and with counter zero the final block (the remaining
count bytes) is consumed.  A non-bytes token under a block read corresponds
to a desynchronized stream and stops the read. -/
def readBlocks : Nat → List Tok → List Nat × List Tok
  | 0, Tok.bytes b :: rest => (b, rest)
  | 0, s => ([], s)
  | k + 1, Tok.bytes b :: rest => prependChunk b (readBlocks k rest)
  | _ + 1, s => ([], s)

/-- Number of iterations of the while loop streaming a payload of the given
byte count in the source: one full 65536-byte block is transferred every
time the remaining count still exceeds 65536, which happens exactly
(sz - 1) / 65536 times. -/
def fullBlocks (sz : Nat) : Nat := (sz - 1) / 65536

/-- Read side of the per-file streaming loop (source lines 578-591): the
while loop transfers fullBlocks sz full 65536-byte blocks and then one
final block holding the remaining count bytes. -/
def readChunks (sz : Nat) (s : List Tok) : List Nat × List Tok :=
  readBlocks (fullBlocks sz) s

/-- The restored scratch directory as the ordered list of entries created
under the freshly recreated root: relative name paired with none for a
directory and some content for a file. -/
abbrev FlatFS : Type := List (List Nat × Option (List Nat))

/-- Remaining-stream length never grows under readBlocks. -/
theorem readBlocks_snd_length (k : Nat) (s : List Tok) :
    (readBlocks k s).2.length ≤ s.length := by
  induction k generalizing s with
  | zero =>
    match s with
    | [] => simp [readBlocks]
    | Tok.tag t :: r => simp [readBlocks]
    | Tok.name n :: r => simp [readBlocks]
    | Tok.size x :: r => simp [readBlocks]
    | Tok.bytes b :: rest => simp [readBlocks]
  | succ k ih =>
    match s with
    | [] => simp [readBlocks]
    | Tok.tag t :: r => simp [readBlocks]
    | Tok.name n :: r => simp [readBlocks]
    | Tok.size x :: r => simp [readBlocks]
    | Tok.bytes b :: rest =>
      simpa [readBlocks, prependChunk] using Nat.le_succ_of_le (ih rest)

/-- Remaining-stream length never grows under readChunks. -/
theorem readChunks_snd_length (sz : Nat) (s : List Tok) :
    (readChunks sz s).2.length ≤ s.length :=
  readBlocks_snd_length (fullBlocks sz) s

/-- Restore loop of DoState in read mode (source lines 560-595): reads a
tag, stops on the zero sentinel, otherwise reads the name and recreates a
directory or reads size plus chunked content and recreates a file; a tag
matching neither case consumes its record header and continues.  The
accumulator is the (freshly wiped) scratch directory being rebuilt. -/
def restoreLoop (acc : FlatFS) (s : List Tok) : FlatFS :=
  match s with
  | [] => acc
  | Tok.tag t :: rest =>
    if t = 0 then acc
    else
      match rest with
      | Tok.name n :: rest2 =>
        if t = tagDir then restoreLoop (acc ++ [(n, none)]) rest2
        else if t = tagFile then
          match rest2 with
          | Tok.size sz :: rest3 =>
            let r := readChunks sz rest3
            restoreLoop (acc ++ [(n, some r.1)]) r.2
          | _ => acc
        else restoreLoop acc rest2
      | _ => acc
  | _ :: _ => acc
termination_by s.length
decreasing_by
  all_goals simp only [List.length_cons]
  · omega
  · have := readChunks_snd_length sz rest3
    omega
  · omega

/-- Relative name of a child enqueued below the entry whose relative name
is the prefix: physicalName minus the scratch root, i.e. the parent name,
one separator and the child name. -/
def childName (prefixName : List Nat) (c : Node) : List Nat :=
  prefixName ++ (sepByte :: c.name)

/-- Measure of the save work queue: total number of tree nodes in it. -/
def queueCount : List (List Nat × Node) → Nat
  | [] => 0
  | (_, n) :: q => nodeCount n + queueCount q

theorem queueCount_append (a b : List (List Nat × Node)) :
    queueCount (a ++ b) = queueCount a + queueCount b := by
  induction a with
  | nil => simp [queueCount]
  | cons x xs ih =>
    match x with
    | (p, n) => simp [queueCount, ih]; omega

theorem queueCount_map (p : List Nat) (cs : List Node) :
    queueCount (cs.map fun c => (childName p c, c)) = nodesCount cs := by
  induction cs with
  | nil => simp [queueCount, nodesCount]
  | cons c cs ih => simp [queueCount, nodesCount, ih]

/-- Save loop of DoState in write mode (source lines 599-635): pops the
front of the work deque, emits the tag and relative name, for a directory
appends its children to the back of the deque (breadth-first order), and
for a file emits the u32-truncated size followed by the chunked content
actually streamed for that size. -/
def saveLoop (q : List (List Nat × Node)) : List Tok :=
  match q with
  | [] => []
  | (p, Node.dir _ cs) :: rest =>
    Tok.tag tagDir :: Tok.name p ::
      saveLoop (rest ++ cs.map fun c => (childName p c, c))
  | (p, Node.file _ c) :: rest =>
    Tok.tag tagFile :: Tok.name p :: Tok.size (c.length % 2 ^ 32) ::
      (writeChunks (c.take (c.length % 2 ^ 32)) ++ saveLoop rest)
termination_by queueCount q
decreasing_by
  · simp only [queueCount, queueCount_append, queueCount_map, nodeCount]
    omega
  · simp only [queueCount, nodeCount]
    omega

/-- Breadth-first listing of the scratch tree below the root, in the order
the save loop visits entries: relative name paired with none for a
directory and some content for a file.  This is the reference description
of the tree that restore is compared against. -/
def bfsListing (q : List (List Nat × Node)) : FlatFS :=
  match q with
  | [] => []
  | (p, Node.dir _ cs) :: rest =>
    (p, none) :: bfsListing (rest ++ cs.map fun c => (childName p c, c))
  | (p, Node.file _ c) :: rest =>
    (p, some c) :: bfsListing rest
termination_by queueCount q
decreasing_by
  · simp only [queueCount, queueCount_append, queueCount_map, nodeCount]
    omega
  · simp only [queueCount, nodeCount]
    omega

/-- Initial work queue of the save pass: the scanned children of the
scratch root, each under its own name. -/
def initQueue (cs : List Node) : List (List Nat × Node) :=
  cs.map fun c => (c.name, c)

/-- Full snapshot stream DoState emits for a scratch root with the given
children: the record stream of the work queue followed by the single zero
type tag (source lines 637-638). -/
def saveStream (cs : List Node) : List Tok :=
  saveLoop (initQueue cs) ++ [Tok.tag 0]

/-- DoState in read mode: the pre-existing scratch contents are deleted
recursively and the root recreated empty before the stream is replayed, so
the result ignores the previous contents entirely. -/
def restoreFS (_pre : FlatFS) (s : List Tok) : FlatFS :=
  restoreLoop [] s

mutual

/-- Every file below the node is strictly shorter than 2 ^ 32 bytes, so the
u32 size field of its record does not truncate. -/
def smallNode : Node → Bool
  | .file _ c => c.length < 2 ^ 32
  | .dir _ cs => smallNodes cs

/-- smallNode over a children list. -/
def smallNodes : List Node → Bool
  | [] => true
  | c :: cs => smallNode c && smallNodes cs

end

/-- smallNode over a work queue. -/
def smallQueue : List (List Nat × Node) → Bool
  | [] => true
  | (_, n) :: q => smallNode n && smallQueue q

theorem writeChunks_small (c : List Nat) (h : ¬ 65536 < c.length) :
    writeChunks c = [Tok.bytes c] := by
  rw [writeChunks]
  simp [h]

theorem writeChunks_large (c : List Nat) (h : 65536 < c.length) :
    writeChunks c = Tok.bytes (c.take 65536) :: writeChunks (c.drop 65536) := by
  rw [writeChunks]
  simp [h]

/-- Auxiliary form of the chunk round trip, by strong induction on the
content length. -/
theorem readChunks_writeChunks_aux (n : Nat) :
    ∀ (c : List Nat), c.length = n → ∀ (rest : List Tok),
      readChunks c.length (writeChunks c ++ rest) = (c, rest) := by
  induction n using Nat.strong_induction_on with
  | _ n ih =>
    intro c hc rest
    by_cases h : 65536 < c.length
    · rw [writeChunks_large c h]
      have hk : fullBlocks c.length = fullBlocks (c.drop 65536).length + 1 := by
        simp only [List.length_drop, fullBlocks]
        omega
      show readBlocks (fullBlocks c.length) _ = _
      rw [hk]
      simp only [List.cons_append, readBlocks]
      have ihd := ih (c.drop 65536).length (by simp; omega) (c.drop 65536) rfl rest
      show prependChunk (c.take 65536)
        (readBlocks (fullBlocks (c.drop 65536).length)
          (writeChunks (c.drop 65536) ++ rest)) = (c, rest)
      rw [show readBlocks (fullBlocks (c.drop 65536).length)
            (writeChunks (c.drop 65536) ++ rest)
          = readChunks (c.drop 65536).length (writeChunks (c.drop 65536) ++ rest)
          from rfl, ihd]
      simp [prependChunk]
    · rw [writeChunks_small c h]
      show readBlocks (fullBlocks c.length) _ = _
      have h0 : fullBlocks c.length = 0 := by
        simp only [fullBlocks]
        omega
      rw [h0]
      simp [readBlocks]

/-- Round trip of one file payload: reading back the blocks the writer
emitted for a content returns exactly that content and leaves the rest of
the stream untouched. -/
theorem readChunks_writeChunks (c : List Nat) (rest : List Tok) :
    readChunks c.length (writeChunks c ++ rest) = (c, rest) :=
  readChunks_writeChunks_aux c.length c rfl rest

/-- What restore actually rebuilds from the record stream of a work queue:
the breadth-first listing with each file content truncated to the u32 size
field the save loop declared for it. -/
def truncListing (q : List (List Nat × Node)) : FlatFS :=
  match q with
  | [] => []
  | (p, Node.dir _ cs) :: rest =>
    (p, none) :: truncListing (rest ++ cs.map fun c => (childName p c, c))
  | (p, Node.file _ c) :: rest =>
    (p, some (c.take (c.length % 2 ^ 32))) :: truncListing rest
termination_by queueCount q
decreasing_by
  · simp only [queueCount, queueCount_append, queueCount_map, nodeCount]
    omega
  · simp only [queueCount, nodeCount]
    omega

theorem smallQueue_append (a b : List (List Nat × Node)) :
    smallQueue (a ++ b) = (smallQueue a && smallQueue b) := by
  induction a with
  | nil => simp [smallQueue]
  | cons x xs ih =>
    match x with
    | (p, n) => simp [smallQueue, ih, Bool.and_assoc]

theorem smallQueue_map (p : List Nat) (cs : List Node) :
    smallQueue (cs.map fun c => (childName p c, c)) = smallNodes cs := by
  induction cs with
  | nil => simp [smallQueue, smallNodes]
  | cons c cs ih => simp [smallQueue, smallNodes, ih]

/-- Under the small-file bound, the truncated listing is the exact
breadth-first listing of the tree. -/
theorem truncListing_eq_bfsListing (q : List (List Nat × Node)) :
    smallQueue q = true → truncListing q = bfsListing q := by
  induction q using truncListing.induct with
  | case1 =>
    intro _
    rw [truncListing, bfsListing]
  | case2 p nm cs rest ih =>
    intro hs
    rw [truncListing, bfsListing]
    rw [smallQueue] at hs
    simp only [Bool.and_eq_true] at hs
    have hs2 : smallQueue (rest ++ cs.map fun c => (childName p c, c)) = true := by
      rw [smallQueue_append, smallQueue_map]
      rw [smallNode] at hs
      simp [hs.1, hs.2]
    rw [ih hs2]
  | case3 p nm c rest ih =>
    intro hs
    rw [truncListing, bfsListing]
    rw [smallQueue] at hs
    simp only [Bool.and_eq_true] at hs
    have hc : c.length < 2 ^ 32 := by
      have := hs.1
      rw [smallNode] at this
      simpa using this
    rw [ih hs.2, Nat.mod_eq_of_lt hc, List.take_length]

theorem restoreLoop_stop (acc : FlatFS) (s : List Tok) :
    restoreLoop acc (Tok.tag 0 :: s) = acc := by
  rw [restoreLoop.eq_def]
  simp

theorem restoreLoop_dir (acc : FlatFS) (n : List Nat) (s : List Tok) :
    restoreLoop acc (Tok.tag tagDir :: Tok.name n :: s)
      = restoreLoop (acc ++ [(n, none)]) s := by
  rw [restoreLoop.eq_def]
  simp [tagDir]

theorem restoreLoop_file (acc : FlatFS) (n : List Nat) (sz : Nat)
    (s : List Tok) :
    restoreLoop acc (Tok.tag tagFile :: Tok.name n :: Tok.size sz :: s)
      = restoreLoop (acc ++ [(n, some (readChunks sz s).1)])
          (readChunks sz s).2 := by
  rw [restoreLoop.eq_def]
  simp [tagFile, tagDir]

theorem readChunks_writeChunks_of_length (ct : List Nat) (sz : Nat)
    (h : ct.length = sz) (r : List Tok) :
    readChunks sz (writeChunks ct ++ r) = (ct, r) := by
  subst h
  exact readChunks_writeChunks ct r

/-- Central replay lemma: feeding the record stream of a work queue to the
restore loop, followed by any continuation of the stream, appends exactly
the truncated breadth-first listing of the queue to the accumulator and
then continues with the rest of the stream. -/
theorem restoreLoop_saveLoop (q : List (List Nat × Node)) :
    ∀ (acc : FlatFS) (tail : List Tok),
      restoreLoop acc (saveLoop q ++ tail)
        = restoreLoop (acc ++ truncListing q) tail := by
  induction q using saveLoop.induct with
  | case1 =>
    intro acc tail
    rw [saveLoop, truncListing]
    simp
  | case2 p nm cs rest ih =>
    intro acc tail
    rw [saveLoop, truncListing]
    simp only [List.cons_append]
    rw [restoreLoop_dir, ih]
    simp
  | case3 p nm c rest ih =>
    intro acc tail
    rw [saveLoop, truncListing]
    simp only [List.cons_append, List.append_assoc]
    rw [restoreLoop_file]
    have hct : (c.take (c.length % 2 ^ 32)).length = c.length % 2 ^ 32 := by
      simp [Nat.mod_le]
    rw [readChunks_writeChunks_of_length _ _ hct]
    rw [ih]
    simp

/-- Recognizes the zero-type-tag sentinel token. -/
def isZeroTag (t : Tok) : Bool := t == Tok.tag 0

theorem countP_writeChunks (c : List Nat) :
    (writeChunks c).countP isZeroTag = 0 := by
  induction c using writeChunks.induct with
  | case1 c h ih =>
    rw [writeChunks_large c h]
    simp [List.countP_cons, isZeroTag, ih]
  | case2 c h =>
    rw [writeChunks_small c h]
    simp [List.countP_cons, isZeroTag]

theorem countP_saveLoop (q : List (List Nat × Node)) :
    (saveLoop q).countP isZeroTag = 0 := by
  induction q using saveLoop.induct with
  | case1 =>
    rw [saveLoop]
    simp
  | case2 p nm cs rest ih =>
    rw [saveLoop]
    simp [List.countP_cons, isZeroTag, ih, tagDir]
  | case3 p nm c rest ih =>
    rw [saveLoop]
    simp [List.countP_cons, List.countP_append, isZeroTag, ih,
          countP_writeChunks, tagFile]

/-- The zero-tag sentinel occurs exactly once in a save stream. -/
theorem saveStream_one_sentinel (cs : List Node) :
    (saveStream cs).countP isZeroTag = 1 := by
  unfold saveStream
  simp [List.countP_append, countP_saveLoop, List.countP_cons, isZeroTag]

/-- The sentinel is the last token of a save stream. -/
theorem saveStream_last (cs : List Node) :
    (saveStream cs).getLast? = some (Tok.tag 0) := by
  unfold saveStream
  simp [List.getLast?_concat]

/-- Restore consumes a save stream up to the sentinel and nothing after
it: whatever trails the sentinel leaves the result unchanged. -/
theorem restoreLoop_ignores_after_sentinel (cs : List Node) (acc : FlatFS)
    (junk : List Tok) :
    restoreLoop acc (saveStream cs ++ junk) = restoreLoop acc (saveStream cs) := by
  unfold saveStream
  rw [List.append_assoc, restoreLoop_saveLoop, restoreLoop_saveLoop]
  rw [List.cons_append, restoreLoop_stop, restoreLoop_stop]

theorem smallQueue_initQueue (cs : List Node) :
    smallQueue (initQueue cs) = smallNodes cs := by
  unfold initQueue
  induction cs with
  | nil => simp [smallQueue, smallNodes]
  | cons c cs ih => simp [smallQueue, smallNodes, ih]

/-- C2 counterexample: the claim asserts the legacy reply 23/42 is produced
even when the directory does not exist on the host, but for the legacy path
with no host entry the handler takes the non-directory branch and writes
blocks 0, inodes 0. -/
theorem getUsage_legacy_missing_dir_not_23_42 :
    IsValidWiiPath legacyTitle1 = true ∧
    (getUsageCase legacyTitle1 none).usageOut = some (0, 0) ∧
    (getUsageCase legacyTitle1 none).usageOut ≠ some (23, 42) := by
  refine ⟨by decide, rfl, by decide⟩

/-- C2 (amended): for a GETUSAGE request whose guest path is one of the two
legacy title paths and whose resolved host path is an existing directory,
the reply is blocks 23 and inodes 42 whatever the directory holds, and the
result code is success.  (The source compares sixteen characters of the
path against each fifteen-character literal, so only the exact legacy path
itself matches, and the check sits inside the existing-directory branch.) -/
theorem getUsage_legacy_override (path : List Nat)
    (h : path = legacyTitle1 ∨ path = legacyTitle2)
    (nm : List Nat) (cs : List Node) :
    (getUsageCase path (some (Node.dir nm cs))).ret = IPC_SUCCESS ∧
    (getUsageCase path (some (Node.dir nm cs))).usageOut = some (23, 42) := by
  rcases h with rfl | rfl
  · exact ⟨rfl, rfl⟩
  · exact ⟨rfl, rfl⟩

/-- Witness for the amended C2 theorem at the first legacy path over a
directory holding one file. -/
theorem getUsage_legacy_override_witness :
    (getUsageCase legacyTitle1
        (some (Node.dir [116] [Node.file [97] [1, 2, 3]]))).ret = IPC_SUCCESS ∧
    (getUsageCase legacyTitle1
        (some (Node.dir [116] [Node.file [97] [1, 2, 3]]))).usageOut
      = some (23, 42) :=
  getUsage_legacy_override legacyTitle1 (Or.inl rfl) [116]
    [Node.file [97] [1, 2, 3]]

/-- C3 counterexample: the claim asserts the vectored dispatcher also
returns EINVAL for an opcode outside its table, but IOCtlV initializes the
return value to success and its default case only logs, so an unknown
vectored opcode reports success. -/
theorem ioctlv_unknown_opcode_success :
    (IOCtlV { request := 255, inCount := 1, ioCount := 1, path := [47],
              maxEntries := 0, namesBufSize := 0 } none id).ret
        = IPC_SUCCESS ∧
    (IOCtlV { request := 255, inCount := 1, ioCount := 1, path := [47],
              maxEntries := 0, namesBufSize := 0 } none id).ret
        ≠ FS_EINVAL := by
  refine ⟨rfl, by decide⟩

/-- C3 (amended): a request whose opcode is in neither dispatch table gets
EINVAL from the scalar entry point, while the vectored entry point only
logs it and reports success, writing no output vector. -/
theorem unknown_opcode_dispatch (fs : HostFS) (req : IOCtlRequest)
    (vreq : VRequest) (resolved : Option Node)
    (unescape : List Nat → List Nat)
    (hreq : req.request ∉
      [IOCTL_GET_STATS, IOCTL_CREATE_DIR, IOCTL_SET_ATTR, IOCTL_GET_ATTR,
       IOCTL_DELETE_FILE, IOCTL_RENAME_FILE, IOCTL_CREATE_FILE,
       IOCTL_SHUTDOWN])
    (hvreq : vreq.request ∉ [IOCTLV_READ_DIR, IOCTLV_GETUSAGE]) :
    ExecuteCommand fs req
        = { ret := FS_EINVAL, fs := fs, out := OutputWrite.nothing } ∧
    IOCtlV vreq resolved unescape = VResult.pure IPC_SUCCESS := by
  simp only [List.mem_cons, List.mem_singleton, not_or] at hreq hvreq
  obtain ⟨h2, h3, h5, h6, h7, h8, h9, h13, -⟩ := hreq
  obtain ⟨h4, h12, -⟩ := hvreq
  constructor
  · simp [ExecuteCommand, h2, h3, h5, h6, h7, h8, h9, h13]
  · simp [IOCtlV, h4, h12]

/-- Witness for the amended C3 theorem at opcode 255 for both entry
points. -/
theorem unknown_opcode_dispatch_witness :
    ExecuteCommand []
        { request := 255, path := [47], pathRename := [47],
          bufferOutSize := 0 }
      = { ret := FS_EINVAL, fs := [], out := OutputWrite.nothing } ∧
    IOCtlV { request := 255, inCount := 1, ioCount := 1, path := [47],
             maxEntries := 0, namesBufSize := 0 } none id
      = VResult.pure IPC_SUCCESS :=
  unknown_opcode_dispatch [] _ _ none id (by decide) (by decide)

/-- C7: GET_STATS with an output buffer smaller than 0x1c bytes returns the
dedicated buffer-too-small code -1017 and writes nothing; with 28 bytes or
more it returns success and writes exactly the canned statistics record,
independent of the host filesystem. -/
theorem get_stats_canned (fs : HostFS) (req : IOCtlRequest)
    (hop : req.request = IOCTL_GET_STATS) :
    (req.bufferOutSize < 28 →
      ExecuteCommand fs req
        = { ret := FS_BUFFER_TOO_SMALL, fs := fs,
            out := OutputWrite.nothing }) ∧
    (28 ≤ req.bufferOutSize →
      ExecuteCommand fs req
        = { ret := IPC_SUCCESS, fs := fs,
            out := OutputWrite.stats cannedStats }) ∧
    cannedStats
      = { BlockSize := 0x4000, FreeUserBlocks := 0x5DEC,
          UsedUserBlocks := 0x1DD4, FreeSysBlocks := 0x10,
          UsedSysBlocks := 0x02F0, Free_INodes := 0x146B,
          Used_Inodes := 0x0394 } := by
  refine ⟨fun hlt => ?_, fun hge => ?_, rfl⟩
  · simp [ExecuteCommand, hop, IOCTL_GET_STATS, hlt]
  · simp [ExecuteCommand, hop, IOCTL_GET_STATS, Nat.not_lt.mpr hge]

/-- Witness for the GET_STATS theorem at buffer sizes 10 and 28. -/
theorem get_stats_canned_witness :
    ExecuteCommand []
        { request := 2, path := [47], pathRename := [47],
          bufferOutSize := 10 }
      = { ret := FS_BUFFER_TOO_SMALL, fs := [], out := OutputWrite.nothing } ∧
    ExecuteCommand []
        { request := 2, path := [47], pathRename := [47],
          bufferOutSize := 28 }
      = { ret := IPC_SUCCESS, fs := [],
          out := OutputWrite.stats cannedStats } :=
  ⟨(get_stats_canned [] _ rfl).1 (by norm_num),
   (get_stats_canned [] _ rfl).2.1 (by norm_num)⟩

/-- C8 counterexample: the claim asserts SHUTDOWN returns a success code,
but its case body only logs and breaks, so control reaches the final
return FS_EINVAL of ExecuteCommand. -/
theorem shutdown_not_success :
    (ExecuteCommand []
        { request := 13, path := [47], pathRename := [47],
          bufferOutSize := 0 }).ret = FS_EINVAL ∧
    FS_EINVAL ≠ IPC_SUCCESS := by
  refine ⟨rfl, by decide⟩

/-- C8 (amended): SHUTDOWN is a no-op on the host filesystem and writes no
output, but the scalar dispatcher falls out of the switch and returns the
generic invalid-argument code EINVAL, not a success code. -/
theorem shutdown_noop_einval (fs : HostFS) (req : IOCtlRequest)
    (hop : req.request = IOCTL_SHUTDOWN) :
    ExecuteCommand fs req
      = { ret := FS_EINVAL, fs := fs, out := OutputWrite.nothing } := by
  simp [ExecuteCommand, hop, IOCTL_SHUTDOWN, IOCTL_GET_STATS,
        IOCTL_CREATE_DIR, IOCTL_SET_ATTR, IOCTL_GET_ATTR, IOCTL_DELETE_FILE,
        IOCTL_RENAME_FILE, IOCTL_CREATE_FILE]

/-- Witness for the SHUTDOWN theorem on a one-entry host filesystem. -/
theorem shutdown_noop_einval_witness :
    ExecuteCommand [([47, 97], HostEntry.directory)]
        { request := 13, path := [47], pathRename := [47],
          bufferOutSize := 0 }
      = { ret := FS_EINVAL, fs := [([47, 97], HostEntry.directory)],
          out := OutputWrite.nothing } :=
  shutdown_noop_einval [([47, 97], HostEntry.directory)] _ rfl

/-- C9: CREATE_FILE on a valid guest path whose resolved target already
exists returns EEXIST and leaves the whole host filesystem exactly as it
was, writing no output: the existence check runs before any creation or
truncation. -/
theorem create_file_exists_frame (fs : HostFS) (req : IOCtlRequest)
    (hop : req.request = IOCTL_CREATE_FILE)
    (hvalid : IsValidWiiPath req.path = true)
    (hex : fsExists fs req.path = true) :
    ExecuteCommand fs req
      = { ret := FS_EEXIST, fs := fs, out := OutputWrite.nothing } := by
  simp [ExecuteCommand, hop, IOCTL_CREATE_FILE, IOCTL_GET_STATS,
        IOCTL_CREATE_DIR, IOCTL_SET_ATTR, IOCTL_GET_ATTR, IOCTL_DELETE_FILE,
        IOCTL_RENAME_FILE, hvalid, hex]

/-- Witness for the CREATE_FILE theorem: the target file with content [5]
exists and survives unchanged. -/
theorem create_file_exists_frame_witness :
    ExecuteCommand [([47, 97], HostEntry.file [5])]
        { request := 9, path := [47, 97], pathRename := [47],
          bufferOutSize := 0 }
      = { ret := FS_EEXIST, fs := [([47, 97], HostEntry.file [5])],
          out := OutputWrite.nothing } :=
  create_file_exists_frame [([47, 97], HostEntry.file [5])] _ rfl
    (by decide) (by decide)

/-- C10: GET_ATTR on a valid guest path naming an existing entry but with
an output buffer whose size is not 76 bytes still returns success, and the
76-byte attribute record is not written: the buffer keeps only the zero
fill IOCtl performed before dispatch. -/
theorem get_attr_wrong_size_silent (fs : HostFS) (req : IOCtlRequest)
    (hop : req.request = IOCTL_GET_ATTR)
    (hvalid : IsValidWiiPath req.path = true)
    (hex : fsExists fs req.path = true)
    (hsz : req.bufferOutSize ≠ 76) :
    IOCtl fs req
      = { ret := IPC_SUCCESS, fs := fs, out := OutputWrite.nothing } := by
  unfold IOCtl
  simp [ExecuteCommand, hop, IOCTL_GET_ATTR, IOCTL_GET_STATS,
        IOCTL_CREATE_DIR, IOCTL_SET_ATTR, hvalid, hex, hsz]

/-- Witness for the GET_ATTR theorem: an existing file queried with a
40-byte output buffer. -/
theorem get_attr_wrong_size_silent_witness :
    IOCtl [([47, 97], HostEntry.file [5])]
        { request := 6, path := [47, 97], pathRename := [47],
          bufferOutSize := 40 }
      = { ret := IPC_SUCCESS, fs := [([47, 97], HostEntry.file [5])],
          out := OutputWrite.nothing } :=
  get_attr_wrong_size_silent [([47, 97], HostEntry.file [5])] _ rfl
    (by decide) (by decide) (by decide)

/-- A path the legacy literal is not a prefix of cannot pass the
sixteen-character compare of the source (a successful compare makes the
compared slice, hence the literal, a prefix of the path). -/
theorem cppCompareEq_eq_false_of_not_prefix (path lit : List Nat)
    (h : ¬ lit <+: path) : cppCompareEq path 16 lit = false := by
  unfold cppCompareEq
  rw [beq_eq_false_iff_ne]
  intro hEq
  exact h (hEq ▸ List.take_prefix 16 path)

/-- C4: GETUSAGE on a valid guest path that no legacy prefix matches:
an existing directory replies success with inodes one more than the total
descendant entry count and blocks the total descendant file bytes divided
by 16384 (so an empty directory gives inodes 1, blocks 0), while a missing
or non-directory path still replies success with blocks 0 and inodes 0.
The bounds keep the u32 and u64 narrowing casts of the source exact. -/
theorem getUsage_real_accounting (path : List Nat)
    (hvalid : IsValidWiiPath path = true)
    (h1 : ¬ legacyTitle1 <+: path) (h2 : ¬ legacyTitle2 <+: path) :
    (∀ (nm : List Nat) (cs : List Node),
        childrenFileSize cs < 2 ^ 64 →
        childrenFileSize cs / (16 * 1024) < 2 ^ 32 →
        1 + nodesCount cs < 2 ^ 32 →
        getUsageCase path (some (Node.dir nm cs))
          = { VResult.pure IPC_SUCCESS with
              usageOut := some (childrenFileSize cs / (16 * 1024),
                                1 + nodesCount cs) }) ∧
    (∀ resolved : Option Node, isDirectoryOpt resolved = false →
        getUsageCase path resolved
          = { VResult.pure IPC_SUCCESS with usageOut := some (0, 0) }) := by
  have hc1 := cppCompareEq_eq_false_of_not_prefix path legacyTitle1 h1
  have hc2 := cppCompareEq_eq_false_of_not_prefix path legacyTitle2 h2
  constructor
  · intro nm cs h64 hdiv hcount
    simp only [getUsageCase, hvalid, Bool.not_true, Bool.false_eq_true,
      if_false, hc1, hc2, Bool.or_self]
    rw [Nat.mod_eq_of_lt h64, Nat.mod_eq_of_lt hdiv,
        Nat.mod_eq_of_lt (show nodesCount cs < 2 ^ 32 by omega),
        Nat.mod_eq_of_lt hcount]
  · intro resolved hdir
    match resolved with
    | none => simp [getUsageCase, hvalid]
    | some (Node.file fnm c) => simp [getUsageCase, hvalid]
    | some (Node.dir dnm cs) => simp [isDirectoryOpt] at hdir

/-- Witness for the GETUSAGE accounting theorem at the root path over an
empty directory and over a missing path. -/
theorem getUsage_real_accounting_witness :
    getUsageCase [47] (some (Node.dir [116] []))
      = { VResult.pure IPC_SUCCESS with usageOut := some (0, 1) } ∧
    getUsageCase [47] none
      = { VResult.pure IPC_SUCCESS with usageOut := some (0, 0) } := by
  have h := getUsage_real_accounting [47] (by decide) (by decide) (by decide)
  constructor
  · have h1 := h.1 [116] [] (by norm_num [childrenFileSize])
      (by norm_num [childrenFileSize]) (by norm_num [nodesCount])
    simpa [childrenFileSize, nodesCount] using h1
  · exact h.2 none (by decide)

/-- C5: READ_DIR in listing mode on a valid existing directory sorts the
unescaped child names, copies the first min(maxEntries, childCount) of
them NUL-terminated and contiguously into the zero-filled names buffer,
and writes that count to the second output vector; the sorted list is a
permutation of the unescaped child names and the copied segment is in
nondecreasing lexicographic order. -/
theorem read_dir_listing_spec (req : VRequest) (nm : List Nat)
    (children : List Node) (unescape : List Nat → List Nat)
    (hop : req.request = IOCTLV_READ_DIR)
    (hvalid : IsValidWiiPath req.path = true)
    (hmode : ¬ (req.inCount = 1 ∧ req.ioCount = 1))
    (hmax : req.maxEntries < 2 ^ 32) :
    (IOCtlV req (some (Node.dir nm children)) unescape).ret
        = IPC_SUCCESS ∧
    (IOCtlV req (some (Node.dir nm children)) unescape).namesOut
        = some (packNames
            (((children.map fun c => unescape c.name).insertionSort
                (· ≤ ·)).take req.maxEntries)
          ++ List.replicate (req.namesBufSize - (packNames
              (((children.map fun c => unescape c.name).insertionSort
                  (· ≤ ·)).take req.maxEntries)).length) 0) ∧
    (IOCtlV req (some (Node.dir nm children)) unescape).listCountOut
        = some (min req.maxEntries children.length) ∧
    List.Sorted (· ≤ ·)
      (((children.map fun c => unescape c.name).insertionSort
          (· ≤ ·)).take req.maxEntries) ∧
    ((children.map fun c => unescape c.name).insertionSort (· ≤ ·)).Perm
      (children.map fun c => unescape c.name) := by
  have hperm := List.perm_insertionSort (α := List Nat) (· ≤ ·)
    (children.map fun c => unescape c.name)
  have hred : IOCtlV req (some (Node.dir nm children)) unescape
      = readDirCase req (some (Node.dir nm children)) unescape := by
    simp [IOCtlV, hop]
  have hcase : readDirCase req (some (Node.dir nm children)) unescape
      = { VResult.pure IPC_SUCCESS with
          namesOut := some (packNames
              (((children.map fun c => unescape c.name).insertionSort
                  (· ≤ ·)).take req.maxEntries)
            ++ List.replicate (req.namesBufSize - (packNames
                (((children.map fun c => unescape c.name).insertionSort
                    (· ≤ ·)).take req.maxEntries)).length) 0),
          listCountOut := some
            ((((children.map fun c => unescape c.name).insertionSort
                (· ≤ ·)).take req.maxEntries).length % 2 ^ 32) } := by
    simp [readDirCase, hvalid, hmode]
  have hlen : (((children.map fun c => unescape c.name).insertionSort
      (· ≤ ·)).take req.maxEntries).length
      = min req.maxEntries children.length := by
    rw [List.length_take, hperm.length_eq, List.length_map]
  refine ⟨?_, ?_, ?_, ?_, hperm⟩
  · rw [hred, hcase]
    rfl
  · rw [hred, hcase]
  · rw [hred, hcase]
    simp only [hlen]
    rw [Nat.mod_eq_of_lt (lt_of_le_of_lt (Nat.min_le_left _ _) hmax)]
  · have hsorted : List.Sorted (· ≤ ·)
        ((children.map fun c => unescape c.name).insertionSort (· ≤ ·)) :=
      List.sorted_insertionSort _ _
    exact List.Pairwise.sublist (List.take_sublist _ _) hsorted

/-- Witness for the READ_DIR listing theorem: two files listed through the
identity unescape into an eight-byte buffer with cap 10. -/
theorem read_dir_listing_spec_witness :
    (IOCtlV { request := 4, inCount := 2, ioCount := 2, path := [47],
              maxEntries := 10, namesBufSize := 8 }
        (some (Node.dir [100] [Node.file [98] [], Node.file [97] []]))
        id).namesOut
      = some [97, 0, 98, 0, 0, 0, 0, 0] ∧
    (IOCtlV { request := 4, inCount := 2, ioCount := 2, path := [47],
              maxEntries := 10, namesBufSize := 8 }
        (some (Node.dir [100] [Node.file [98] [], Node.file [97] []]))
        id).listCountOut
      = some 2 := by
  have h := read_dir_listing_spec
    { request := 4, inCount := 2, ioCount := 2, path := [47],
      maxEntries := 10, namesBufSize := 8 }
    [100] [Node.file [98] [], Node.file [97] []] id rfl (by decide)
    (by simp) (by norm_num)
  refine ⟨?_, ?_⟩
  · rw [h.2.1]
    decide
  · rw [h.2.2.1]
    decide

/-- C6: the snapshot stream of a save holds exactly one record with the
zero type tag, that record is the last of the stream, and restore stops at
it: tokens following the sentinel never change the restored result. -/
theorem save_stream_sentinel (cs : List Node) :
    ((saveStream cs).countP isZeroTag = 1 ∧
      (saveStream cs).getLast? = some (Tok.tag 0)) ∧
    ∀ (acc : FlatFS) (junk : List Tok),
      restoreLoop acc (saveStream cs ++ junk)
        = restoreLoop acc (saveStream cs) :=
  ⟨⟨saveStream_one_sentinel cs, saveStream_last cs⟩,
    fun acc junk => restoreLoop_ignores_after_sentinel cs acc junk⟩

/-- C1 (amended): for a scratch tree all of whose files are shorter than
2^32 bytes, restoring the stream produced by a save rebuilds exactly the
breadth-first listing of the saved tree — the same relative names with the
same byte contents, nothing else — regardless of what the scratch
directory held before (restore wipes it first).  The size bound is forced
by the u32 size field of the stream format. -/
theorem scratch_save_restore_roundtrip (cs : List Node)
    (h : smallNodes cs = true) (pre : FlatFS) :
    restoreFS pre (saveStream cs) = bfsListing (initQueue cs) := by
  unfold restoreFS saveStream
  rw [restoreLoop_saveLoop, restoreLoop_stop]
  rw [truncListing_eq_bfsListing _ (by rw [smallQueue_initQueue]; exact h)]
  simp

/-- Witness for the round-trip theorem: a two-level tree with a nested
two-byte file and an empty top-level file, restored over a non-empty
pre-existing scratch state. -/
theorem scratch_save_restore_roundtrip_witness :
    smallNodes [Node.dir [100] [Node.file [98] [7, 8]], Node.file [99] []]
        = true ∧
    restoreFS [([120], none)]
        (saveStream
          [Node.dir [100] [Node.file [98] [7, 8]], Node.file [99] []])
      = bfsListing (initQueue
          [Node.dir [100] [Node.file [98] [7, 8]], Node.file [99] []]) :=
  ⟨by norm_num [smallNodes, smallNode],
    scratch_save_restore_roundtrip _ (by norm_num [smallNodes, smallNode]) _⟩

/-- C1 counterexample: a scratch tree holding one file of exactly 2^32
zero bytes does not round trip as the claim states for every file size:
the u32 size field wraps to zero, the save stream then carries no content
bytes, and restore rebuilds the file empty. -/
theorem scratch_roundtrip_fails_at_u32_wrap :
    restoreFS [] (saveStream [Node.file [97] (List.replicate (2 ^ 32) 0)])
      ≠ bfsListing (initQueue [Node.file [97] (List.replicate (2 ^ 32) 0)]) := by
  have hmod : (List.replicate (2 ^ 32) (0 : Nat)).length % 2 ^ 32 = 0 := by
    rw [List.length_replicate, Nat.mod_self]
  have hs : saveStream [Node.file [97] (List.replicate (2 ^ 32) 0)]
      = [Tok.tag tagFile, Tok.name [97], Tok.size 0, Tok.bytes [],
         Tok.tag 0] := by
    unfold saveStream initQueue
    rw [List.map_cons, List.map_nil]
    rw [show (Node.file [97] (List.replicate (2 ^ 32) 0)).name = [97] from rfl]
    rw [saveLoop, hmod, List.take_zero]
    rw [writeChunks_small _ (by simp), saveLoop]
    rfl
  have hread : readChunks 0 [Tok.bytes [], Tok.tag 0]
      = ([], [Tok.tag 0]) := by
    unfold readChunks fullBlocks
    norm_num [readBlocks]
  have hr : restoreFS []
      [Tok.tag tagFile, Tok.name [97], Tok.size 0, Tok.bytes [], Tok.tag 0]
      = [([97], some ([] : List Nat))] := by
    unfold restoreFS
    rw [restoreLoop_file, hread, restoreLoop_stop]
    rfl
  have hb : bfsListing (initQueue [Node.file [97] (List.replicate (2 ^ 32) 0)])
      = [([97], some (List.replicate (2 ^ 32) (0 : Nat)))] := by
    unfold initQueue
    rw [List.map_cons, List.map_nil]
    rw [show (Node.file [97] (List.replicate (2 ^ 32) 0)).name = [97] from rfl]
    rw [bfsListing, bfsListing]
  rw [hs, hr, hb]
  intro hEq
  have h2 := (List.cons.inj hEq).1
  have h3 := congrArg Prod.snd h2
  have h4 := Option.some.inj h3
  have h5 := congrArg List.length h4
  rw [List.length_replicate, List.length_nil] at h5
  exact absurd h5 (by norm_num)

end DolphinFS
